import Mathlib

/-!
Verification of the foundry-ai-text-importer core against its specification.

The TypeScript sources are shallowly embedded: getters of
`Foundry5eItemFormatter` become pure Lean functions over a record type
mirroring `Parsed5eItem`; the retry, error-classification, batching and
rate-limiting modules become explicit functional models.  JavaScript
truthiness on optional strings and numbers is modelled explicitly
(`none` and the empty string, respectively zero, are falsy).
-/

/-- Model of the JavaScript `String.prototype.includes` check used throughout
the source (`s.includes(pat)`). -/
def strContains (s pat : String) : Bool :=
  decide (pat.toList <:+: s.toList)

/-- JavaScript truthiness of an optional string value: `undefined`/missing and
the empty string are falsy. -/
def jsTruthyStr (o : Option String) : Bool :=
  match o with
  | some s => s ≠ ""
  | none => false

/-- JavaScript truthiness of an optional number: `undefined`/`null` and zero
are falsy. -/
def jsTruthyInt (o : Option Int) : Bool :=
  match o with
  | some n => n ≠ 0
  | none => false

/-- The `range` substructure of a parsed item (`Parsed5eItem.range`). -/
structure ParsedRange where
  value : Option Int
  long : Option Int
  units : String
deriving DecidableEq

/-- The `uses` substructure of a parsed item (`Parsed5eItem.uses`). -/
structure ParsedUses where
  value : Option Int
  per : Option String
  recovery : String
deriving DecidableEq

/-- The `damage` substructure of a parsed item: `parts` is a list of
(formula, damage-type) string pairs, as in the zod schema. -/
structure ParsedDamage where
  parts : List (String × String)
  versatile : String
deriving DecidableEq

/-- The `save` substructure of a parsed item (`Parsed5eItem.save`). -/
structure ParsedSave where
  ability : String
  dc : Option Int
deriving DecidableEq

/-- The fields of `Parsed5eItem` consumed by the formatter getters verified
here.  Fields the verified getters never read (weight, price, quantity,
activation, duration, target, recharge, img, flags) are omitted.  `itemType`
and `actionType` are kept as raw strings, as the TypeScript switch statements
operate on strings at runtime. -/
structure Parsed5eItem where
  name : String
  description : String
  itemType : Option String
  itemSubtype : Option String
  actionType : String
  weaponType : Option String
  baseItem : Option String
  properties : Option (List String)
  rarity : Option String
  attunement : String
  magicalBonus : Option Int
  range : Option ParsedRange
  uses : Option ParsedUses
  damage : Option ParsedDamage
  save : Option ParsedSave
deriving DecidableEq

namespace Foundry5eItemFormatter

/-- Embeds the `get type()` getter of `Foundry5eItemFormatter`: map a present
(truthy) `itemType` through the fixed table, otherwise fall back to inferring
from `actionType`.  All non-weapon-attack action types (the explicitly listed
cases and the default) return "feat", exactly as in the source switch. -/
def type (p : Parsed5eItem) : String :=
  if jsTruthyStr p.itemType then
    match p.itemType.getD "" with
    | "weapon" => "weapon"
    | "equipment" => "equipment"
    | "tool" => "equipment"
    | "loot" => "equipment"
    | "backpack" => "equipment"
    | "consumable" => "feat"
    | "spell" => "spell"
    | _ => "equipment"
  else
    match p.actionType with
    | "meleeWeaponAttack" => "weapon"
    | "rangedWeaponAttack" => "weapon"
    | _ => "feat"

/-- Embeds the `get magicalBonus()` getter: `this.parsedItem.magicalBonus ||
null`, i.e. zero collapses to `null`. -/
def magicalBonus (p : Parsed5eItem) : Option Int :=
  match p.magicalBonus with
  | some n => if n = 0 then none else some n
  | none => none

end Foundry5eItemFormatter

/-- Model of the JavaScript `String.prototype.toLowerCase()` call: lowercase
character by character (faithful on ASCII input). -/
def strToLower (s : String) : String :=
  ⟨s.data.map Char.toLower⟩

/-- Whitespace characters recognised by the regular-expression class used in
`get identifier()`.  The embedding covers the ASCII whitespace characters;
exotic Unicode space characters are not modelled. -/
def isJsWhitespace (c : Char) : Bool :=
  c = ' ' || c = '\t' || c = '\n' || c = '\r' || c = '\x0b' || c = '\x0c'

/-- Characters kept by the final character filter of `get identifier()`:
lowercase ASCII letters, ASCII digits and the hyphen (`[a-z0-9-]`). -/
def isIdentChar (c : Char) : Bool :=
  (97 ≤ c.toNat && c.toNat ≤ 122) || (48 ≤ c.toNat && c.toNat ≤ 57) || c = '-'

/-- Embeds the global replacement `replace(/\s+/g, '-')`: each maximal run of
whitespace becomes a single hyphen.  The boolean flag records whether the scan
is currently inside a whitespace run. -/
def replaceWsRuns : List Char → Bool → List Char
  | [], _ => []
  | c :: rest, inRun =>
    if isJsWhitespace c then
      if inRun then replaceWsRuns rest true
      else '-' :: replaceWsRuns rest true
    else c :: replaceWsRuns rest false

/-- Specification-worded collapse of whitespace runs: on meeting a whitespace
character, emit one hyphen and skip the whole maximal whitespace run. -/
def collapseWsRuns (l : List Char) : List Char :=
  match l with
  | [] => []
  | c :: rest =>
    if isJsWhitespace c then '-' :: collapseWsRuns (rest.dropWhile isJsWhitespace)
    else c :: collapseWsRuns rest
termination_by l.length
decreasing_by
  · exact Nat.lt_succ_of_le (List.Sublist.length_le (List.dropWhile_sublist isJsWhitespace))
  · exact Nat.lt_succ_of_le (Nat.le_refl rest.length)

namespace Foundry5eItemFormatter

/-- Embeds the `get identifier()` getter:
`name.toLowerCase().replace(/\s+/g, '-').replace(/[^a-z0-9\-]/g, '')`. -/
def identifier (p : Parsed5eItem) : String :=
  ⟨(replaceWsRuns (strToLower p.name).data false).filter isIdentChar⟩

/-- Wording of the specification for the identifier: lowercase the name,
replace every maximal whitespace run by a single hyphen, then delete every
character that is not a lowercase letter, digit or hyphen. -/
def identifierSpec (p : Parsed5eItem) : String :=
  ⟨(collapseWsRuns (strToLower p.name).data).filter isIdentChar⟩

end Foundry5eItemFormatter

lemma replaceWsRuns_true_eq_dropWhile (l : List Char) :
    replaceWsRuns l true = replaceWsRuns (l.dropWhile isJsWhitespace) false := by
  induction l with
  | nil => rfl
  | cons c rest ih =>
    by_cases h : isJsWhitespace c = true
    · simp only [replaceWsRuns, h, if_pos, List.dropWhile_cons, ih]
    · simp only [replaceWsRuns, List.dropWhile_cons, h]
      simp [replaceWsRuns, h]

lemma collapseWsRuns_eq_replaceWsRuns (l : List Char) :
    collapseWsRuns l = replaceWsRuns l false := by
  generalize hn : l.length = n
  induction n using Nat.strong_induction_on generalizing l with
  | _ n ih =>
    match l with
    | [] =>
      rw [collapseWsRuns, replaceWsRuns]
    | c :: rest =>
      by_cases h : isJsWhitespace c = true
      · have hlen : (rest.dropWhile isJsWhitespace).length < n := by
          rw [← hn]
          exact Nat.lt_succ_of_le (List.Sublist.length_le (List.dropWhile_sublist isJsWhitespace))
        rw [collapseWsRuns, replaceWsRuns]
        simp [h, replaceWsRuns_true_eq_dropWhile, ih _ hlen _ rfl]
      · have hlen : rest.length < n := by
          rw [← hn]
          exact Nat.lt_succ_of_le (Nat.le_refl rest.length)
        rw [collapseWsRuns, replaceWsRuns]
        simp [h, ih _ hlen _ rfl]

/-- A concrete parsed item (a magical dagger) used to witness the theorems
below at evaluable inputs. -/
def sampleBase : Parsed5eItem :=
  { name := "Dagger +1"
    description := "A magical dagger granting a +1 bonus to attack and damage rolls."
    itemType := some "weapon"
    itemSubtype := none
    actionType := "meleeWeaponAttack"
    weaponType := none
    baseItem := none
    properties := some ["finesse", "light", "thrown"]
    rarity := some "uncommon"
    attunement := ""
    magicalBonus := some 1
    range := some { value := some 20, long := some 60, units := "ft" }
    uses := some { value := some 3, per := some "day", recovery := "" }
    damage := some { parts := [("1d4 + @mod", "piercing"), ("2d10", "poison")], versatile := "" }
    save := some { ability := "con", dc := some 15 } }

/-- Claim C2: the projected target type is a deterministic function of a
present (truthy) itemType via the fixed table (weapon to weapon; equipment,
tool, loot, backpack to equipment; consumable to feat; spell to spell; any
other present itemType to equipment); with itemType unset the type is weapon
exactly when actionType is meleeWeaponAttack or rangedWeaponAttack, and feat
otherwise. -/
theorem c2_type_resolution (p : Parsed5eItem) :
    (p.itemType = some "weapon" → Foundry5eItemFormatter.type p = "weapon") ∧
    (∀ s, s ∈ (["equipment", "tool", "loot", "backpack"] : List String) → p.itemType = some s →
      Foundry5eItemFormatter.type p = "equipment") ∧
    (p.itemType = some "consumable" → Foundry5eItemFormatter.type p = "feat") ∧
    (p.itemType = some "spell" → Foundry5eItemFormatter.type p = "spell") ∧
    (∀ s, p.itemType = some s → s ≠ "" →
      s ∉ (["weapon", "equipment", "tool", "loot", "backpack", "consumable", "spell"] : List String) →
      Foundry5eItemFormatter.type p = "equipment") ∧
    (jsTruthyStr p.itemType = false →
      Foundry5eItemFormatter.type p =
        if p.actionType = "meleeWeaponAttack" ∨ p.actionType = "rangedWeaponAttack"
        then "weapon" else "feat") := by
  refine ⟨?_, ?_, ?_, ?_, ?_, ?_⟩
  · intro h
    simp [Foundry5eItemFormatter.type, h, jsTruthyStr]
  · intro s hs h
    fin_cases hs <;> simp [Foundry5eItemFormatter.type, h, jsTruthyStr]
  · intro h
    simp [Foundry5eItemFormatter.type, h, jsTruthyStr]
  · intro h
    simp [Foundry5eItemFormatter.type, h, jsTruthyStr]
  · intro s h hne hnotin
    simp only [Foundry5eItemFormatter.type, h, jsTruthyStr]
    rw [if_pos (by simpa using hne)]
    simp only [Option.getD_some]
    split <;> simp_all
  · intro hft
    rw [Foundry5eItemFormatter.type, if_neg (by simp [hft])]
    by_cases h1 : p.actionType = "meleeWeaponAttack"
    · rw [h1, if_pos (Or.inl rfl)]
      rfl
    · by_cases h2 : p.actionType = "rangedWeaponAttack"
      · rw [h2, if_pos (Or.inr rfl)]
        rfl
      · rw [if_neg (by tauto)]
        split <;> simp_all

/-- Witness for claim C2 at a concrete item with itemType unset and a ranged
weapon attack action type. -/
theorem c2_type_resolution_witness :
    jsTruthyStr (Parsed5eItem.itemType
      { sampleBase with itemType := none, actionType := "rangedWeaponAttack" }) = false ∧
    Foundry5eItemFormatter.type
      { sampleBase with itemType := none, actionType := "rangedWeaponAttack" } = "weapon" := by
  refine ⟨rfl, ?_⟩
  have h := (c2_type_resolution
    { sampleBase with itemType := none, actionType := "rangedWeaponAttack" }).2.2.2.2.2 rfl
  rw [if_pos (Or.inr rfl)] at h
  exact h

/-- Claim C10: the synthesized identifier equals the item name lowercased with
every maximal whitespace run replaced by a single hyphen and every remaining
character outside lowercase letters, digits and hyphens deleted; in particular
every character of the identifier is a lowercase ASCII letter, an ASCII digit
or a hyphen. -/
theorem c10_identifier_shape (p : Parsed5eItem) :
    Foundry5eItemFormatter.identifier p = Foundry5eItemFormatter.identifierSpec p ∧
    ∀ c ∈ (Foundry5eItemFormatter.identifier p).data, isIdentChar c = true := by
  constructor
  · unfold Foundry5eItemFormatter.identifier Foundry5eItemFormatter.identifierSpec
    rw [collapseWsRuns_eq_replaceWsRuns]
  · intro c hc
    unfold Foundry5eItemFormatter.identifier at hc
    exact List.of_mem_filter hc

/-- Witness for claim C10 at the sample dagger item. -/
theorem c10_identifier_shape_witness :
    isIdentChar 'd' = true ∧
    Foundry5eItemFormatter.identifier sampleBase = Foundry5eItemFormatter.identifierSpec sampleBase :=
  ⟨(c10_identifier_shape sampleBase).2 'd' (by decide), (c10_identifier_shape sampleBase).1⟩

/-- Value of a decimal digit run, as `parseInt` computes it on a digit-only
match. -/
def digitsToNat (l : List Char) : Nat :=
  l.foldl (fun acc c => acc * 10 + (c.toNat - 48)) 0

/-- Leftmost match of the regular expression `(\d+)d(\d+)` against a damage
formula: the first maximal digit run immediately followed by the letter d and
another digit run.  Returns the two captured numbers. -/
def findDiceMatch : List Char → Option (Nat × Nat)
  | [] => none
  | c :: rest =>
    if c.isDigit then
      match (c :: rest).dropWhile Char.isDigit with
      | 'd' :: c2 :: tail =>
        if c2.isDigit then
          some (digitsToNat ((c :: rest).takeWhile Char.isDigit),
                digitsToNat ((c2 :: tail).takeWhile Char.isDigit))
        else findDiceMatch rest
      | _ => findDiceMatch rest
    else findDiceMatch rest

/-- One entry of an activity damage-parts list, with the constant `custom`
and `scaling` subobjects flattened into scalar fields. -/
structure DamagePartOut where
  number : Option Nat
  denomination : Option Nat
  bonus : String
  types : List String
  customEnabled : Bool
  customFormula : String
  scalingNumber : Nat
deriving DecidableEq

namespace Foundry5eItemFormatter

/-- String interpolation of the magical bonus (the template literal
interpolating `this.magicalBonus`); empty when the bonus is absent, in which
case the source never reads it. -/
def magicalBonusString (p : Parsed5eItem) : String :=
  match magicalBonus p with
  | some k => toString k
  | none => ""

/-- One damage part of the Attack activity, from `getBaseDamageParts`: dice
numbers parsed out of the formula, with the magical bonus textually applied
only at index 0 and only when the bonus is truthy. -/
def baseDamagePart (p : Parsed5eItem) (index : Nat) (part : String × String) : DamagePartOut :=
  let damage := part.1
  let shouldApplyMagicalBonus := index == 0 && (magicalBonus p).isSome
  let m := findDiceMatch damage.data
  let bonus :=
    if strContains damage "+ @mod" then
      (if shouldApplyMagicalBonus then "@mod + " ++ magicalBonusString p else "@mod")
    else if strContains damage "@mod" then
      (if shouldApplyMagicalBonus then "@mod + " ++ magicalBonusString p else "@mod")
    else if shouldApplyMagicalBonus then magicalBonusString p
    else ""
  { number := m.map Prod.fst
    denomination := m.map Prod.snd
    bonus := bonus
    types := [part.2]
    customEnabled := false
    customFormula := ""
    scalingNumber := 1 }

end Foundry5eItemFormatter

/-- Index-aware list map mirroring the JavaScript `Array.prototype.map`
callback receiving the element index. -/
def mapWithIndex (f : Nat → α → β) : Nat → List α → List β
  | _, [] => []
  | i, a :: as => f i a :: mapWithIndex f (i + 1) as

namespace Foundry5eItemFormatter

/-- Embeds `getBaseDamageParts`: empty when there are no damage parts,
otherwise every part mapped with its index. -/
def getBaseDamageParts (p : Parsed5eItem) : List DamagePartOut :=
  match p.damage with
  | none => []
  | some dmg =>
    if dmg.parts.length = 0 then []
    else mapWithIndex (baseDamagePart p) 0 dmg.parts

/-- One damage part of the Save activity, from `getSaveDamageParts`: dice
numbers parsed out of the formula with the 2d10 default, never any bonus. -/
def saveDamagePart (part : String × String) : DamagePartOut :=
  let m := findDiceMatch part.1.data
  { number := some (match m with | some nd => nd.1 | none => 2)
    denomination := some (match m with | some nd => nd.2 | none => 10)
    bonus := ""
    types := [part.2]
    customEnabled := false
    customFormula := ""
    scalingNumber := 1 }

/-- Embeds `getSaveDamageParts`: damage parts from index 1 onward (the
secondary effects), empty when fewer than two parts exist. -/
def getSaveDamageParts (p : Parsed5eItem) : List DamagePartOut :=
  match p.damage with
  | none => []
  | some dmg =>
    if dmg.parts.length < 2 then []
    else (dmg.parts.drop 1).map saveDamagePart

/-- Embeds the range value string shared by the three activities:
`range?.value?.toString() || '5'`. -/
def activityRangeValue (p : Parsed5eItem) : String :=
  match p.range with
  | some r => match r.value with | some v => toString v | none => "5"
  | none => "5"

/-- Embeds the range units string shared by the three activities:
`range?.units || 'ft'`. -/
def activityRangeUnits (p : Parsed5eItem) : String :=
  match p.range with
  | some r => if r.units = "" then "ft" else r.units
  | none => "ft"

/-- Embeds `determineAttackType`: explicit ranged weapon-type codes, then
ranged weapon name keywords, then thrown weapons stay melee, default melee. -/
def determineAttackType (p : Parsed5eItem) : String :=
  let weaponName := strToLower p.name
  let properties := p.properties.getD []
  if p.weaponType = some "simpleR" ∨ p.weaponType = some "martialR" then "ranged"
  else if (["bow", "crossbow", "sling", "blowgun", "dart"].any fun w => strContains weaponName w)
    then "ranged"
  else if properties.contains "thrown" || properties.contains "thr" then "melee"
  else "melee"

/-- Embeds `getUtilityActivityName`: keyword scan of name and description. -/
def getUtilityActivityName (p : Parsed5eItem) : String :=
  let name := strToLower p.name
  let description := strToLower p.description
  if strContains name "venom" || strContains description "poison" then "Poison Blade"
  else if strContains description "fire" || strContains description "flame" then "Ignite"
  else if strContains description "light" || strContains description "illuminate" then "Illuminate"
  else "Special Ability"

end Foundry5eItemFormatter

/-- The Attack activity fields that vary with the parsed item (constant
activation, consumption, duration and target subobjects omitted). -/
structure AttackActivity where
  id : String
  activityType : String
  rangeValue : String
  rangeUnits : String
  attackBonus : String
  attackTypeValue : String
  attackClassification : String
  damageIncludeBase : Bool
  damageParts : List DamagePartOut
deriving DecidableEq

/-- The Save activity fields that vary with the parsed item. -/
structure SaveActivity where
  id : String
  activityType : String
  rangeValue : String
  rangeUnits : String
  damageOnSave : String
  damageParts : List DamagePartOut
  saveAbility : List String
  dcFormula : String
  name : String
deriving DecidableEq

/-- The Utility activity fields that vary with the parsed item. -/
structure UtilityActivity where
  id : String
  activityType : String
  rangeValue : String
  rangeUnits : String
  name : String
deriving DecidableEq

/-- One synthesized activity: the three variants produced by the formatter. -/
inductive Activity where
  | attack : AttackActivity → Activity
  | save : SaveActivity → Activity
  | utility : UtilityActivity → Activity
deriving DecidableEq

namespace Foundry5eItemFormatter

/-- Embeds `createAttackActivity`. -/
def createAttackActivity (p : Parsed5eItem) : AttackActivity :=
  { id := "dnd5eactivity000"
    activityType := "attack"
    rangeValue := activityRangeValue p
    rangeUnits := activityRangeUnits p
    attackBonus := match magicalBonus p with | some k => toString k | none => ""
    attackTypeValue := determineAttackType p
    attackClassification := "weapon"
    damageIncludeBase := true
    damageParts := getBaseDamageParts p }

/-- Embeds `createSaveActivity`. -/
def createSaveActivity (p : Parsed5eItem) : SaveActivity :=
  { id := "dnd5eactivity100"
    activityType := "save"
    rangeValue := activityRangeValue p
    rangeUnits := activityRangeUnits p
    damageOnSave := "half"
    damageParts := getSaveDamageParts p
    saveAbility := [match p.save with
      | some sv => if sv.ability = "" then "con" else sv.ability
      | none => "con"]
    dcFormula := match p.save with
      | some sv => (match sv.dc with | some d => toString d | none => "15")
      | none => "15"
    name := "" }

/-- Embeds `createUtilityActivity`. -/
def createUtilityActivity (p : Parsed5eItem) : UtilityActivity :=
  { id := "dnd5eactivity300"
    activityType := "utility"
    rangeValue := activityRangeValue p
    rangeUnits := activityRangeUnits p
    name := getUtilityActivityName p }

/-- The Save-activity guard of `get activities()`:
`this.parsedItem.save?.ability && this.parsedItem.save?.dc`. -/
def hasSaveActivity (p : Parsed5eItem) : Bool :=
  match p.save with
  | some sv => sv.ability ≠ "" && jsTruthyInt sv.dc
  | none => false

/-- The Utility-activity guard of `get activities()`:
`this.parsedItem.uses?.value && this.parsedItem.uses.value > 0`. -/
def hasUtilityActivity (p : Parsed5eItem) : Bool :=
  match p.uses with
  | some u => match u.value with
    | some v => v ≠ 0 && decide (0 < v)
    | none => false
  | none => false

/-- Embeds `get activities()`: an association list keyed by the stable
synthetic activity identifiers; empty for non-weapon items. -/
def activities (p : Parsed5eItem) : List (String × Activity) :=
  if type p ≠ "weapon" then []
  else
    [("dnd5eactivity000", Activity.attack (createAttackActivity p))]
    ++ (if hasSaveActivity p then [("dnd5eactivity100", Activity.save (createSaveActivity p))] else [])
    ++ (if hasUtilityActivity p then [("dnd5eactivity300", Activity.utility (createUtilityActivity p))] else [])

end Foundry5eItemFormatter

lemma strContains_iff {s pat : String} : strContains s pat = true ↔ pat.toList <:+: s.toList := by
  simp [strContains]

lemma strContains_append_self (a s : String) : strContains (a ++ s) s = true := by
  rw [strContains_iff]
  have hdata : (a ++ s).toList = a.toList ++ s.toList := by
    simp [String.toList, String.data_append]
  rw [hdata]
  exact (List.suffix_append a.toList s.toList).isInfix

lemma strContains_self (s : String) : strContains s s = true := by
  rw [strContains_iff]

lemma strContains_trans {s t u : String} (h1 : strContains s t = true)
    (h2 : strContains t u = true) : strContains s u = true := by
  rw [strContains_iff] at *
  exact h2.trans h1

lemma not_strContains_of_digits (s t : String)
    (hne : t.toList ≠ []) (hdig : ∀ c ∈ t.toList, c.isDigit = true)
    (hnod : ∀ c ∈ s.toList, c.isDigit = false) : strContains s t = false := by
  rw [← Bool.not_eq_true, strContains_iff]
  intro hinf
  obtain ⟨c, hc⟩ := List.exists_mem_of_ne_nil t.toList hne
  have h1 : c ∈ s.toList := hinf.subset hc
  have hcontra := hnod c h1
  rw [hdig c hc] at hcontra
  simp at hcontra

lemma digitChar_isDigit {m : Nat} (h : m < 10) : (Nat.digitChar m).isDigit = true := by
  interval_cases m <;> decide

lemma toDigitsCore_digits (fuel : Nat) :
    ∀ (n : Nat) (ds : List Char), (∀ c ∈ ds, c.isDigit = true) →
      ∀ c ∈ Nat.toDigitsCore 10 fuel n ds, c.isDigit = true := by
  induction fuel with
  | zero =>
    intro n ds hds c hc
    rw [Nat.toDigitsCore] at hc
    exact hds c hc
  | succ f ih =>
    intro n ds hds c hc
    rw [Nat.toDigitsCore] at hc
    by_cases h : n / 10 = 0
    · rw [if_pos h] at hc
      rcases List.mem_cons.mp hc with h1 | h1
      · subst h1
        exact digitChar_isDigit (Nat.mod_lt _ (by norm_num))
      · exact hds c h1
    · rw [if_neg h] at hc
      refine ih _ _ ?_ c hc
      intro c2 hc2
      rcases List.mem_cons.mp hc2 with h1 | h1
      · subst h1
        exact digitChar_isDigit (Nat.mod_lt _ (by norm_num))
      · exact hds c2 h1

lemma toDigitsCore_ne_nil (fuel : Nat) :
    ∀ (n : Nat) (ds : List Char), fuel ≠ 0 ∨ ds ≠ [] → Nat.toDigitsCore 10 fuel n ds ≠ [] := by
  induction fuel with
  | zero =>
    intro n ds h
    rw [Nat.toDigitsCore]
    rcases h with h | h
    · exact absurd rfl h
    · exact h
  | succ f ih =>
    intro n ds _
    rw [Nat.toDigitsCore]
    by_cases h : n / 10 = 0
    · rw [if_pos h]
      exact List.cons_ne_nil _ _
    · rw [if_neg h]
      exact ih _ _ (Or.inr (List.cons_ne_nil _ _))

lemma natRepr_data (n : Nat) : (Nat.repr n).data = Nat.toDigitsCore 10 (n + 1) n [] := rfl

lemma intToString_pos (n : Int) (h : 0 < n) :
    (toString n).toList ≠ [] ∧ ∀ c ∈ (toString n).toList, c.isDigit = true := by
  obtain ⟨m, rfl⟩ : ∃ m : Nat, n = Int.ofNat m := ⟨n.toNat, (Int.toNat_of_nonneg (le_of_lt h)).symm⟩
  have hts : (toString (Int.ofNat m)).toList = (Nat.repr m).data := rfl
  rw [hts, natRepr_data]
  exact ⟨toDigitsCore_ne_nil _ _ _ (Or.inl (Nat.succ_ne_zero m)),
    toDigitsCore_digits _ _ _ (by simp)⟩

lemma mapWithIndex_length (f : Nat → α → β) (i : Nat) (l : List α) :
    (mapWithIndex f i l).length = l.length := by
  induction l generalizing i with
  | nil => rfl
  | cons a as ih => simp [mapWithIndex, ih]

lemma mapWithIndex_getElem? (f : Nat → α → β) (i j : Nat) (l : List α) :
    (mapWithIndex f i l)[j]? = (l[j]?).map (f (i + j)) := by
  induction l generalizing i j with
  | nil => simp [mapWithIndex]
  | cons a as ih =>
    cases j with
    | zero => simp [mapWithIndex]
    | succ k =>
      simp only [mapWithIndex, List.getElem?_cons_succ, ih]
      have harith : i + 1 + k = i + (k + 1) := by omega
      rw [harith]

lemma baseDamagePart_bonus (p : Parsed5eItem) (i : Nat) (part : String × String) :
    (Foundry5eItemFormatter.baseDamagePart p i part).bonus =
      if i == 0 && (Foundry5eItemFormatter.magicalBonus p).isSome then
        (if strContains part.1 "@mod" then "@mod + " ++ Foundry5eItemFormatter.magicalBonusString p
         else Foundry5eItemFormatter.magicalBonusString p)
      else
        (if strContains part.1 "@mod" then "@mod" else "") := by
  by_cases h2 : strContains part.1 "@mod" = true
  · by_cases h1 : strContains part.1 "+ @mod" = true <;>
      cases hsa : (i == 0 && (Foundry5eItemFormatter.magicalBonus p).isSome) <;>
        simp [Foundry5eItemFormatter.baseDamagePart, h1, h2, hsa]
  · have h1 : strContains part.1 "+ @mod" = false := by
      rw [← Bool.not_eq_true]
      intro hh
      exact absurd
        (strContains_trans hh (show strContains "+ @mod" "@mod" = true by decide))
        (by simpa using h2)
    cases hsa : (i == 0 && (Foundry5eItemFormatter.magicalBonus p).isSome) <;>
      simp [Foundry5eItemFormatter.baseDamagePart, h1, h2, hsa]

lemma countP_mapWithIndex_pos (p : Parsed5eItem) (n : Int) (hpos : 0 < n) :
    ∀ (l : List (String × String)) (j : Nat), j ≠ 0 →
      (mapWithIndex (Foundry5eItemFormatter.baseDamagePart p) j l).countP
        (fun d => strContains d.bonus (toString n)) = 0 := by
  intro l
  induction l with
  | nil => intro j _; rfl
  | cons a as ih =>
    intro j hj
    rw [mapWithIndex, List.countP_cons, ih (j + 1) (Nat.succ_ne_zero j)]
    have hb := baseDamagePart_bonus p j a
    rw [show (j == 0) = false by simpa using hj, Bool.false_and, if_neg (by simp)] at hb
    have hfalse : strContains (Foundry5eItemFormatter.baseDamagePart p j a).bonus (toString n)
        = false := by
      rw [hb]
      by_cases h2 : strContains a.1 "@mod" = true
      · rw [if_pos h2]
        exact not_strContains_of_digits _ _ (intToString_pos n hpos).1
          (intToString_pos n hpos).2 (by decide)
      · rw [if_neg h2]
        exact not_strContains_of_digits _ _ (intToString_pos n hpos).1
          (intToString_pos n hpos).2 (by decide)
    simp [hfalse]

/-- Claim C1: for a weapon item with positive magical bonus and non-empty
damage parts, the Attack activity has one damage part per parsed part, in
order; the bonus text carrying the magical bonus value (either "@mod + N"
when the formula mentions @mod, or the literal "N" otherwise) appears exactly
once, on the first damage part; every later bonus omits the magical bonus. -/
theorem c1_magical_bonus_once (p : Parsed5eItem) (n : Int) (dmg : ParsedDamage)
    (htype : Foundry5eItemFormatter.type p = "weapon")
    (hmb : p.magicalBonus = some n) (hpos : 0 < n)
    (hdmg : p.damage = some dmg) (hne : dmg.parts ≠ []) :
    (Foundry5eItemFormatter.createAttackActivity p).damageParts.length = dmg.parts.length ∧
    (∀ i : Nat,
      ((Foundry5eItemFormatter.createAttackActivity p).damageParts[i]?).map DamagePartOut.bonus
        = (dmg.parts[i]?).map (fun part =>
            if i = 0 then
              (if strContains part.1 "@mod" then "@mod + " ++ toString n else toString n)
            else
              (if strContains part.1 "@mod" then "@mod" else ""))) ∧
    (Foundry5eItemFormatter.createAttackActivity p).damageParts.countP
        (fun d => strContains d.bonus (toString n)) = 1 := by
  have hmbg : Foundry5eItemFormatter.magicalBonus p = some n := by
    simp [Foundry5eItemFormatter.magicalBonus, hmb]
    omega
  have hmbs : Foundry5eItemFormatter.magicalBonusString p = toString n := by
    simp [Foundry5eItemFormatter.magicalBonusString, hmbg]
  have hlen0 : ¬ dmg.parts.length = 0 := by simpa [List.length_eq_zero] using hne
  have hparts : (Foundry5eItemFormatter.createAttackActivity p).damageParts
      = mapWithIndex (Foundry5eItemFormatter.baseDamagePart p) 0 dmg.parts := by
    simp [Foundry5eItemFormatter.createAttackActivity,
      Foundry5eItemFormatter.getBaseDamageParts, hdmg, hlen0]
  refine ⟨?_, ?_, ?_⟩
  · rw [hparts, mapWithIndex_length]
  · intro i
    rw [hparts, mapWithIndex_getElem?]
    cases hget : dmg.parts[i]? with
    | none => rfl
    | some part =>
      rw [Option.map_map]
      simp only [Option.map_some']
      refine congrArg some ?_
      simp only [Function.comp_apply]
      rw [Nat.zero_add]
      have hb := baseDamagePart_bonus p i part
      by_cases hi : i = 0
      · subst hi
        rw [hb]
        simp [hmbg, hmbs]
      · rw [hb, show (i == 0) = false by simpa using hi, Bool.false_and, if_neg (by simp),
          if_neg hi]
  · rw [hparts]
    obtain ⟨q, qs, hqs⟩ := List.exists_cons_of_ne_nil hne
    rw [hqs, mapWithIndex, List.countP_cons, countP_mapWithIndex_pos p n hpos qs 1 one_ne_zero]
    have hb := baseDamagePart_bonus p 0 q
    rw [show ((0 : Nat) == 0) = true from rfl, hmbg] at hb
    simp only [Option.isSome_some, Bool.true_and, if_true] at hb
    have hcont : strContains (Foundry5eItemFormatter.baseDamagePart p 0 q).bonus (toString n)
        = true := by
      rw [hb, hmbs]
      by_cases h2 : strContains q.1 "@mod" = true
      · rw [if_pos h2]
        exact strContains_append_self _ _
      · rw [if_neg h2]
        exact strContains_self _
    simp [hcont]

/-- Witness for claim C1 at the sample magical dagger. -/
theorem c1_magical_bonus_once_witness :
    Foundry5eItemFormatter.type sampleBase = "weapon" ∧
    (Foundry5eItemFormatter.createAttackActivity sampleBase).damageParts.countP
      (fun d => strContains d.bonus (toString (1 : Int))) = 1 :=
  ⟨rfl, (c1_magical_bonus_once sampleBase 1
      { parts := [("1d4 + @mod", "piercing"), ("2d10", "poison")], versatile := "" }
      rfl rfl (by norm_num) rfl (by simp)).2.2⟩

lemma getSaveDamageParts_eq_drop (p : Parsed5eItem) :
    Foundry5eItemFormatter.getSaveDamageParts p
      = (((p.damage.map ParsedDamage.parts).getD []).drop 1).map
          Foundry5eItemFormatter.saveDamagePart := by
  unfold Foundry5eItemFormatter.getSaveDamageParts
  cases hd : p.damage with
  | none => rfl
  | some dmg =>
    simp only [Option.map_some', Option.getD_some]
    by_cases hl : dmg.parts.length < 2
    · rw [if_pos hl]
      have : dmg.parts.drop 1 = [] := by
        rw [List.drop_eq_nil_iff]
        omega
      rw [this]
      rfl
    · rw [if_neg hl]

/-- Claim C3: for weapon items the activities map always contains the Attack
activity under key dnd5eactivity000; contains the Save activity under key
dnd5eactivity100 exactly when both the save ability and the save DC are
truthy, and its damage parts are the parsed damage parts from index 1 onward
with onSave "half"; contains the Utility activity under key dnd5eactivity300
exactly when the use count is positive.  Non-weapon items get an empty
activities map. -/
theorem c3_activities_invariant (p : Parsed5eItem) :
    (Foundry5eItemFormatter.type p = "weapon" →
      ((Foundry5eItemFormatter.activities p).lookup "dnd5eactivity000"
          = some (Activity.attack (Foundry5eItemFormatter.createAttackActivity p))) ∧
      ((Foundry5eItemFormatter.activities p).lookup "dnd5eactivity100"
          = if Foundry5eItemFormatter.hasSaveActivity p
            then some (Activity.save (Foundry5eItemFormatter.createSaveActivity p)) else none) ∧
      ((Foundry5eItemFormatter.activities p).lookup "dnd5eactivity300"
          = if Foundry5eItemFormatter.hasUtilityActivity p
            then some (Activity.utility (Foundry5eItemFormatter.createUtilityActivity p))
            else none)) ∧
    (Foundry5eItemFormatter.hasSaveActivity p = true ↔
      ∃ sv, p.save = some sv ∧ sv.ability ≠ "" ∧ ∃ d, sv.dc = some d ∧ d ≠ 0) ∧
    (Foundry5eItemFormatter.hasUtilityActivity p = true ↔
      ∃ u, p.uses = some u ∧ ∃ v, u.value = some v ∧ 0 < v) ∧
    ((Foundry5eItemFormatter.createSaveActivity p).damageParts
        = (((p.damage.map ParsedDamage.parts).getD []).drop 1).map
            Foundry5eItemFormatter.saveDamagePart) ∧
    ((Foundry5eItemFormatter.createSaveActivity p).damageOnSave = "half") ∧
    (Foundry5eItemFormatter.type p ≠ "weapon" → Foundry5eItemFormatter.activities p = []) := by
  refine ⟨?_, ?_, ?_, ?_, rfl, ?_⟩
  · intro htype
    have hne : ¬ Foundry5eItemFormatter.type p ≠ "weapon" := by simp [htype]
    by_cases hs : Foundry5eItemFormatter.hasSaveActivity p <;>
      by_cases hu : Foundry5eItemFormatter.hasUtilityActivity p <;>
        refine ⟨?_, ?_, ?_⟩ <;>
          simp [Foundry5eItemFormatter.activities, hne, hs, hu, List.lookup]
  · unfold Foundry5eItemFormatter.hasSaveActivity
    cases hsv : p.save with
    | none => simp
    | some sv =>
      simp only [Option.some.injEq, Bool.and_eq_true, decide_eq_true_eq]
      constructor
      · rintro ⟨hab, hdc⟩
        refine ⟨sv, rfl, hab, ?_⟩
        cases hv2 : sv.dc with
        | none =>
          rw [hv2] at hdc
          exact absurd hdc (by simp [jsTruthyInt])
        | some d =>
          rw [hv2] at hdc
          exact ⟨d, rfl, by simpa [jsTruthyInt] using hdc⟩
      · rintro ⟨sv2, heq, hab, d, hdc, hd0⟩
        obtain rfl : sv2 = sv := heq.symm
        exact ⟨hab, by simp [jsTruthyInt, hdc, hd0]⟩
  · unfold Foundry5eItemFormatter.hasUtilityActivity
    cases hus : p.uses with
    | none => simp
    | some u =>
      simp only [Option.some.injEq]
      constructor
      · intro h
        refine ⟨u, rfl, ?_⟩
        cases hv2 : u.value with
        | none =>
          rw [hv2] at h
          exact absurd h (by simp)
        | some v =>
          rw [hv2] at h
          simp only [Bool.and_eq_true, decide_eq_true_eq] at h
          exact ⟨v, rfl, h.2⟩
      · rintro ⟨u2, heq, v, hv, hpos⟩
        obtain rfl : u2 = u := heq.symm
        rw [hv]
        simp only [Bool.and_eq_true, decide_eq_true_eq]
        exact ⟨by omega, hpos⟩
  · exact getSaveDamageParts_eq_drop p
  · intro htype
    simp [Foundry5eItemFormatter.activities, htype]

/-- Witness for claim C3 at the sample magical dagger, which has both a save
and a use count. -/
theorem c3_activities_invariant_witness :
    Foundry5eItemFormatter.type sampleBase = "weapon" ∧
    (Foundry5eItemFormatter.activities sampleBase).lookup "dnd5eactivity000"
      = some (Activity.attack (Foundry5eItemFormatter.createAttackActivity sampleBase)) :=
  ⟨rfl, ((c3_activities_invariant sampleBase).1 rfl).1⟩

namespace RetryHandler

/-- The error shape inspected by `isRetryableError`: message, HTTP status,
node error code and error class name, each possibly absent. -/
structure RetryError where
  message : Option String
  status : Option Int
  code : Option String
  name : Option String
deriving DecidableEq

/-- The hard-coded retryable status list, set identically by the constructor
default and by `forOpenAI`. -/
def retryableStatusCodes : List Int := [429, 500, 502, 503, 504]

/-- Embeds `isRetryableError`: message mentioning 429 or quota, retryable
HTTP status (status truthy and contained in the list), named network errors,
then the two LangChain error class names. -/
def isRetryableError (e : RetryError) : Bool :=
  if (match e.message with
      | some m => strContains m "429" || strContains m "quota"
      | none => false) then true
  else if (match e.status with
      | some s => s ≠ 0 && retryableStatusCodes.contains s
      | none => false) then true
  else if e.code = some "ECONNRESET" || e.code = some "ETIMEDOUT" then true
  else if e.name = some "InsufficientQuotaError" || e.name = some "RateLimitError" then true
  else false

/-- Claim-side predicate: HTTP-style status in the retryable set. -/
def statusRetryable (e : RetryError) : Bool :=
  match e.status with
  | some s => retryableStatusCodes.contains s
  | none => false

/-- Claim-side predicate: the message mentions rate-limit or quota phrasing,
or the error bears one of the rate-limit or quota class names. -/
def messageRetryable (e : RetryError) : Bool :=
  (match e.message with
   | some m => strContains m "429" || strContains m "quota"
   | none => false)
  || e.name = some "InsufficientQuotaError" || e.name = some "RateLimitError"

/-- Claim-side predicate: named network timeout or connection reset. -/
def networkRetryable (e : RetryError) : Bool :=
  e.code = some "ECONNRESET" || e.code = some "ETIMEDOUT"

/-- One run of the retry loop of `executeWithRetry`: `fn i` is the outcome of
the attempt numbered `i`, `remaining` is the number of retries still allowed
(`maxRetries - attempt` in the source loop, whose `attempt === maxRetries`
test is `remaining = 0` here).  Returns the final outcome together with the
number of attempts performed. -/
def executeWithRetryGo {E A : Type} (isR : E → Bool) (fn : Nat → Except E A) :
    Nat → Nat → Except E A × Nat
  | attempt, remaining =>
    match fn attempt with
    | Except.ok a => (Except.ok a, 1)
    | Except.error e =>
      if isR e = false then (Except.error e, 1)
      else
        match remaining with
        | 0 => (Except.error e, 1)
        | r + 1 =>
          let rest := executeWithRetryGo isR fn (attempt + 1) r
          (rest.1, rest.2 + 1)

/-- Embeds `executeWithRetry`: when the retry policy is disabled the operation
runs exactly once; otherwise the loop starts at attempt 0 with `maxRetries`
retries available. -/
def executeWithRetry {E A : Type} (enabled : Bool) (isR : E → Bool) (maxRetries : Nat)
    (fn : Nat → Except E A) : Except E A × Nat :=
  if enabled then executeWithRetryGo isR fn 0 maxRetries
  else (fn 0, 1)

lemma executeWithRetryGo_le {E A : Type} (isR : E → Bool) (fn : Nat → Except E A) :
    ∀ (remaining attempt : Nat),
      (executeWithRetryGo isR fn attempt remaining).2 ≤ remaining + 1 := by
  intro remaining
  induction remaining with
  | zero =>
    intro attempt
    rw [executeWithRetryGo]
    cases fn attempt with
    | ok a => simp
    | error e =>
      by_cases h : isR e = false <;> simp [h]
  | succ r ih =>
    intro attempt
    rw [executeWithRetryGo]
    cases fn attempt with
    | ok a => simp
    | error e =>
      by_cases h : isR e = false
      · simp [h]
      · simp only [Bool.not_eq_false] at h
        simp [h]
        have hih := ih (attempt + 1)
        omega

lemma executeWithRetryGo_exhaust {E A : Type} (isR : E → Bool) (fn : Nat → Except E A) :
    ∀ (remaining attempt : Nat),
      (∀ i, attempt ≤ i → i ≤ attempt + remaining → ∃ e, fn i = Except.error e ∧ isR e = true) →
      executeWithRetryGo isR fn attempt remaining = (fn (attempt + remaining), remaining + 1) := by
  intro remaining
  induction remaining with
  | zero =>
    intro attempt h
    obtain ⟨e, he, hr⟩ := h attempt (le_refl _) (by omega)
    rw [Nat.add_zero, executeWithRetryGo, he]
    simp [hr, he]
  | succ r ih =>
    intro attempt h
    obtain ⟨e, he, hr⟩ := h attempt (le_refl _) (by omega)
    rw [executeWithRetryGo, he]
    have hih := ih (attempt + 1) (fun i h1 h2 => h i (by omega) (by omega))
    have harith : attempt + 1 + r = attempt + (r + 1) := by omega
    simp [hr, hih, harith]

lemma executeWithRetryGo_nonretryable {E A : Type} (isR : E → Bool) (fn : Nat → Except E A) :
    ∀ (k attempt remaining : Nat) (e : E),
      (∀ i, attempt ≤ i → i < attempt + k → ∃ e2, fn i = Except.error e2 ∧ isR e2 = true) →
      fn (attempt + k) = Except.error e → isR e = false → k ≤ remaining →
      executeWithRetryGo isR fn attempt remaining = (Except.error e, k + 1) := by
  intro k
  induction k with
  | zero =>
    intro attempt remaining e _ hfe hnr _
    rw [Nat.add_zero] at hfe
    rw [executeWithRetryGo, hfe]
    simp [hnr]
  | succ j ih =>
    intro attempt remaining e h hfe hnr hk
    obtain ⟨e2, he2, hr2⟩ := h attempt (le_refl _) (by omega)
    cases remaining with
    | zero => omega
    | succ r =>
      rw [executeWithRetryGo, he2]
      have hih := ih (attempt + 1) r e (fun i h1 h2 => h i (by omega) (by omega))
        (by have harith : attempt + 1 + j = attempt + (j + 1) := by omega
            rw [harith]; exact hfe) hnr (by omega)
      simp [hr2, hih]

end RetryHandler

lemma statusAux (s : Int) :
    (¬ s = 0 ∧ (s = 429 ∨ s = 500 ∨ s = 502 ∨ s = 503 ∨ s = 504)) ↔
      (s = 429 ∨ s = 500 ∨ s = 502 ∨ s = 503 ∨ s = 504) := by
  omega

/-- Claim C4: with the retry policy enabled, executeWithRetry performs at most
maxRetries + 1 attempts in total; when every attempt up to maxRetries fails
with a retryable error, the final outcome is the error of the last attempt,
reached after exactly maxRetries + 1 attempts. -/
theorem c4_retry_bound {E A : Type} (isR : E → Bool) (maxRetries : Nat)
    (fn : Nat → Except E A) :
    ((RetryHandler.executeWithRetry true isR maxRetries fn).2 ≤ maxRetries + 1) ∧
    ((∀ i, i ≤ maxRetries → ∃ e, fn i = Except.error e ∧ isR e = true) →
      RetryHandler.executeWithRetry true isR maxRetries fn
        = (fn maxRetries, maxRetries + 1)) := by
  constructor
  · rw [RetryHandler.executeWithRetry, if_pos rfl]
    exact RetryHandler.executeWithRetryGo_le isR fn maxRetries 0
  · intro h
    rw [RetryHandler.executeWithRetry, if_pos rfl]
    have hex := RetryHandler.executeWithRetryGo_exhaust isR fn maxRetries 0
      (fun i h1 h2 => h i (by omega))
    simpa using hex

/-- Witness for claim C4: two attempts, both failing retryably, surface the
error of attempt one after exactly two attempts. -/
theorem c4_retry_bound_witness :
    (∀ i, i ≤ 1 → ∃ e, (fun j => (Except.error j : Except Nat Nat)) i = Except.error e
        ∧ (fun _ => true) e = true) ∧
    RetryHandler.executeWithRetry true (fun _ => true) 1
        (fun j => (Except.error j : Except Nat Nat))
      = (Except.error 1, 2) := by
  constructor
  · intro i _
    exact ⟨i, rfl, rfl⟩
  · exact (c4_retry_bound (fun _ => true) 1 (fun j => Except.error j)).2 (fun i _ => ⟨i, rfl, rfl⟩)

/-- Claim C5: an error is classified retryable exactly when its status is in
the set 429, 500, 502, 503, 504, or its message or error-class name carries
rate-limit or quota phrasing, or it is a named network timeout or connection
reset; and a non-retryable error is rethrown immediately after the attempt
that produced it, with no further attempts. -/
theorem c5_retryable_classification :
    (∀ e : RetryHandler.RetryError,
      RetryHandler.isRetryableError e
        = (RetryHandler.statusRetryable e || RetryHandler.messageRetryable e
            || RetryHandler.networkRetryable e)) ∧
    (∀ (A : Type) (fn : Nat → Except RetryHandler.RetryError A)
        (maxRetries k : Nat) (e : RetryHandler.RetryError),
      (∀ i, i < k → ∃ e2, fn i = Except.error e2
          ∧ RetryHandler.isRetryableError e2 = true) →
      fn k = Except.error e → RetryHandler.isRetryableError e = false → k ≤ maxRetries →
      RetryHandler.executeWithRetry true RetryHandler.isRetryableError maxRetries fn
        = (Except.error e, k + 1)) := by
  constructor
  · intro e
    unfold RetryHandler.isRetryableError RetryHandler.statusRetryable
      RetryHandler.messageRetryable RetryHandler.networkRetryable
    rw [Bool.eq_iff_iff]
    cases hm : e.message <;> cases hs : e.status <;>
      simp_all [RetryHandler.retryableStatusCodes, statusAux] <;> tauto
  · intro A fn maxRetries k e h hfe hnr hk
    rw [RetryHandler.executeWithRetry, if_pos rfl]
    exact RetryHandler.executeWithRetryGo_nonretryable _ fn k 0 maxRetries e
      (fun i h1 h2 => h i (by omega)) (by simpa using hfe) hnr hk

/-- A concrete non-retryable error: HTTP 400 with a plain message. -/
def sampleNonRetryable : RetryHandler.RetryError :=
  { message := some "bad request", status := some 400, code := none, name := none }

/-- Witness for claim C5: the sample 400 error is non-retryable and is
rethrown after a single attempt even with three retries allowed. -/
theorem c5_retryable_classification_witness :
    RetryHandler.isRetryableError sampleNonRetryable = false ∧
    RetryHandler.executeWithRetry true RetryHandler.isRetryableError 3
        (fun _ => (Except.error sampleNonRetryable : Except RetryHandler.RetryError Nat))
      = (Except.error sampleNonRetryable, 1) := by
  refine ⟨by decide, ?_⟩
  exact (c5_retryable_classification).2 Nat _ 3 0 sampleNonRetryable
    (fun i hi => absurd hi (by omega)) rfl (by decide) (by omega)

namespace APIErrorHandler

/-- The raw error shape inspected by `analyzeError`: message, the two status
locations, class name, error code, the two possible retry-after headers, and
the `toString()` rendering used when the message is falsy. -/
structure APIError where
  message : Option String
  status : Option Int
  responseStatus : Option Int
  name : Option String
  code : Option String
  retryAfterHeader : Option String
  headersRetryAfter : Option String
  str : String
deriving DecidableEq

/-- JavaScript `a || b` on optional strings (missing and empty are falsy). -/
def jsOrStr (a b : Option String) : Option String :=
  match a with
  | some s => if s = "" then b else some s
  | none => b

/-- JavaScript `a || b` on optional numbers (missing and zero are falsy). -/
def jsOrInt (a b : Option Int) : Option Int :=
  match a with
  | some n => if n = 0 then b else some n
  | none => b

/-- The `error.message || error.toString()` fallback. -/
def errorMessage (e : APIError) : String :=
  match e.message with
  | some m => if m = "" then e.str else m
  | none => e.str

/-- JavaScript `parseInt(s, 10)`: skip leading whitespace, optional sign,
then a maximal leading digit run; NaN (none) when no digit follows. -/
def jsParseInt (s : String) : Option Int :=
  let l := s.toList.dropWhile isJsWhitespace
  match l with
  | '-' :: rest =>
    (match rest.takeWhile Char.isDigit with
     | [] => none
     | ds => some (-(digitsToNat ds : Int)))
  | '+' :: rest =>
    (match rest.takeWhile Char.isDigit with
     | [] => none
     | ds => some ((digitsToNat ds : Int)))
  | _ =>
    (match l.takeWhile Char.isDigit with
     | [] => none
     | ds => some ((digitsToNat ds : Int)))

/-- Embeds the private `parseRetryAfter`: the first truthy retry-after header,
parsed as an integer and converted from seconds to milliseconds. -/
def parseRetryAfter (e : APIError) : Option Int :=
  match jsOrStr e.retryAfterHeader e.headersRetryAfter with
  | some s =>
    if s = "" then none
    else match jsParseInt s with
      | some k => some (k * 1000)
      | none => none
  | none => none

/-- Embeds `isQuotaExceededError`. -/
def isQuotaExceededError (e : APIError) : Bool :=
  let message := strToLower (e.message.getD "")
  (strContains message "quota" && strContains message "exceeded")
  || strContains message "insufficient_quota"
  || e.name = some "InsufficientQuotaError"
  || e.code = some "insufficient_quota"

/-- Embeds the private `isRateLimitError`. -/
def isRateLimitError (e : APIError) : Bool :=
  let message := strToLower (e.message.getD "")
  e.status = some 429
  || strContains message "rate limit"
  || strContains message "429"
  || e.name = some "RateLimitError"

/-- The `errorStatus >= 400` test (false when no status is available). -/
def statusGE400 (errorStatus : Option Int) : Bool :=
  match errorStatus with
  | some s => decide (s ≥ 400)
  | none => false

/-- Integer model of the `Math.ceil(x / 1000)` computation. -/
def jsCeilDiv1000 (ra : Int) : Int := -((-ra).ediv 1000)

/-- Embeds the private `getGenericErrorMessage`. -/
def getGenericErrorMessage (status : Int) : String :=
  if status = 401 then "Invalid or missing API key"
  else if status = 403 then "Access forbidden - check API key permissions"
  else if status = 404 then "Requested resource not found"
  else if status = 500 then "OpenAI server error"
  else if status = 502 then "Bad gateway - OpenAI service issue"
  else if status = 503 then "Service temporarily unavailable"
  else "Request failed"

/-- Embeds the private `getGenericErrorSuggestion`. -/
def getGenericErrorSuggestion (status : Int) : String :=
  if status = 401 then "Check your OpenAI API key in the module settings."
  else if status = 403 then "Verify your API key has the necessary permissions for GPT models."
  else if status = 404 then "The requested model may not be available with your API key."
  else if status = 500 ∨ status = 502 ∨ status = 503 then
    "This is a temporary OpenAI service issue. Please try again in a few minutes."
  else "Check your internet connection and try again."

/-- The diagnosis record produced by `analyzeError`. -/
structure APIErrorInfo where
  isQuotaError : Bool
  isRateLimitError : Bool
  userMessage : String
  technicalMessage : String
  suggestedAction : String
  retryAfter : Option Int
deriving DecidableEq

/-- Embeds `analyzeError`: quota first, then rate limit, then generic HTTP
status at least 400, then unknown. -/
def analyzeError (e : APIError) : APIErrorInfo :=
  let errMsg := errorMessage e
  let errorStatus := jsOrInt e.status e.responseStatus
  if isQuotaExceededError e then
    { isQuotaError := true
      isRateLimitError := false
      userMessage := "OpenAI API quota exceeded. Please check your billing and usage limits."
      technicalMessage := errMsg
      suggestedAction := "Visit https://platform.openai.com/usage to check your quota and billing status. You may need to add credits or upgrade your plan."
      retryAfter := none }
  else if isRateLimitError e then
    let retryAfter := parseRetryAfter e
    { isQuotaError := false
      isRateLimitError := true
      userMessage := "API rate limit exceeded. " ++
        (match retryAfter with
         | some ra =>
           if ra ≠ 0 then "Retry after " ++ toString (jsCeilDiv1000 ra) ++ " seconds."
           else "Please wait and try again."
         | none => "Please wait and try again.")
      technicalMessage := errMsg
      suggestedAction := "The system will automatically retry with exponential backoff. If this persists, consider reducing concurrent requests."
      retryAfter := retryAfter }
  else if statusGE400 errorStatus then
    let s := errorStatus.getD 0
    { isQuotaError := false
      isRateLimitError := false
      userMessage := "OpenAI API error (" ++ toString s ++ "): " ++ getGenericErrorMessage s
      technicalMessage := errMsg
      suggestedAction := getGenericErrorSuggestion s
      retryAfter := none }
  else
    { isQuotaError := false
      isRateLimitError := false
      userMessage := "An unexpected error occurred while communicating with OpenAI."
      technicalMessage := errMsg
      suggestedAction := "Please check your internet connection and API key configuration."
      retryAfter := none }

end APIErrorHandler

/-- Claim C6: analyzeError applies its rules in fixed precedence with first
match winning (quota signature, then rate-limit signature with retryAfter
parsed from metadata in milliseconds, then any status of at least 400 with a
status-specific message, then unknown); exactly one category results and the
quota and rate-limit flags are never both set. -/
theorem c6_analyze_error_precedence (e : APIErrorHandler.APIError) :
    (((APIErrorHandler.analyzeError e).isQuotaError
        && (APIErrorHandler.analyzeError e).isRateLimitError) = false) ∧
    (APIErrorHandler.isQuotaExceededError e = true →
      (APIErrorHandler.analyzeError e).isQuotaError = true ∧
      (APIErrorHandler.analyzeError e).isRateLimitError = false) ∧
    (APIErrorHandler.isQuotaExceededError e = false →
      APIErrorHandler.isRateLimitError e = true →
      (APIErrorHandler.analyzeError e).isQuotaError = false ∧
      (APIErrorHandler.analyzeError e).isRateLimitError = true ∧
      (APIErrorHandler.analyzeError e).retryAfter = APIErrorHandler.parseRetryAfter e) ∧
    (APIErrorHandler.isQuotaExceededError e = false →
      APIErrorHandler.isRateLimitError e = false →
      ∀ s, APIErrorHandler.jsOrInt e.status e.responseStatus = some s → s ≥ 400 →
      (APIErrorHandler.analyzeError e).isQuotaError = false ∧
      (APIErrorHandler.analyzeError e).isRateLimitError = false ∧
      (APIErrorHandler.analyzeError e).userMessage
        = "OpenAI API error (" ++ toString s ++ "): "
            ++ APIErrorHandler.getGenericErrorMessage s ∧
      (APIErrorHandler.analyzeError e).suggestedAction
        = APIErrorHandler.getGenericErrorSuggestion s) ∧
    (APIErrorHandler.isQuotaExceededError e = false →
      APIErrorHandler.isRateLimitError e = false →
      APIErrorHandler.statusGE400 (APIErrorHandler.jsOrInt e.status e.responseStatus) = false →
      (APIErrorHandler.analyzeError e).isQuotaError = false ∧
      (APIErrorHandler.analyzeError e).isRateLimitError = false ∧
      (APIErrorHandler.analyzeError e).userMessage
        = "An unexpected error occurred while communicating with OpenAI.") ∧
    (∀ s k, APIErrorHandler.jsOrStr e.retryAfterHeader e.headersRetryAfter = some s →
      s ≠ "" → APIErrorHandler.jsParseInt s = some k →
      APIErrorHandler.parseRetryAfter e = some (k * 1000)) := by
  refine ⟨?_, ?_, ?_, ?_, ?_, ?_⟩
  · by_cases hq : APIErrorHandler.isQuotaExceededError e = true
    · simp [APIErrorHandler.analyzeError, hq]
    · by_cases hr : APIErrorHandler.isRateLimitError e = true
      · simp [APIErrorHandler.analyzeError, hq, hr]
      · by_cases hs : APIErrorHandler.statusGE400
            (APIErrorHandler.jsOrInt e.status e.responseStatus) = true <;>
          simp [APIErrorHandler.analyzeError, hq, hr, hs]
  · intro hq
    simp [APIErrorHandler.analyzeError, hq]
  · intro hq hr
    simp [APIErrorHandler.analyzeError, hq, hr]
  · intro hq hr s hst hge
    have hs2 : APIErrorHandler.statusGE400 (some s) = true := by
      simpa [APIErrorHandler.statusGE400] using hge
    refine ⟨?_, ?_, ?_, ?_⟩ <;>
      simp [APIErrorHandler.analyzeError, hq, hr, hst, hs2]
  · intro hq hr hs
    simp [APIErrorHandler.analyzeError, hq, hr, hs]
  · intro s k hhdr hne hparse
    simp [APIErrorHandler.parseRetryAfter, hhdr, hne, hparse]

/-- A concrete rate-limited error carrying a retry-after header of 2 seconds. -/
def sampleRateLimited : APIErrorHandler.APIError :=
  { message := some "Rate limit reached for requests"
    status := some 429
    responseStatus := none
    name := none
    code := none
    retryAfterHeader := some "2"
    headersRetryAfter := none
    str := "" }

/-- Witness for claim C6 at the sample rate-limited error. -/
theorem c6_analyze_error_precedence_witness :
    APIErrorHandler.isQuotaExceededError sampleRateLimited = false ∧
    APIErrorHandler.isRateLimitError sampleRateLimited = true ∧
    (APIErrorHandler.analyzeError sampleRateLimited).isRateLimitError = true ∧
    (APIErrorHandler.analyzeError sampleRateLimited).retryAfter = some 2000 := by
  refine ⟨by decide, by decide, ?_, ?_⟩
  · exact ((c6_analyze_error_precedence sampleRateLimited).2.2.1 (by decide) (by decide)).2.1
  · have h := ((c6_analyze_error_precedence sampleRateLimited).2.2.1 (by decide) (by decide)).2.2
    rw [h]
    decide

namespace BatchProcessor

/-- The second positional argument handed to askLLM by `processRequest`: in
the dynamically typed source this slot can hold either the zod output schema
or, as on the non-batchable immediate path, the output-options object. -/
inductive SchemaSlot (S O : Type) where
  | schema : S → SchemaSlot S O
  | options : O → SchemaSlot S O
deriving DecidableEq

/-- The argument tuple of one immediate askLLM call. -/
structure AskCall (S I O : Type) where
  promptText : String
  schemaArg : SchemaSlot S O
  inputOptions : I
  outputOptions : O
deriving DecidableEq

/-- The fixed batchable prompt prefixes of `isBatchable`. -/
def batchablePatterns : List String :=
  ["Parse the provided item text into",
   "Extract the item name and description",
   "Parse the following item data"]

/-- Embeds `isBatchable`. -/
def isBatchable (promptText : String) : Bool :=
  batchablePatterns.any (fun pat => strContains promptText pat)

/-- Outcome of the entry decision of `processRequest`: either an immediate
askLLM call with the given arguments, or enqueueing into a pending batch. -/
inductive ProcessOutcome (S I O : Type) where
  | immediate : AskCall S I O → ProcessOutcome S I O
  | queued : ProcessOutcome S I O
deriving DecidableEq

/-- Embeds the entry decision of `processRequest` (source lines 59 to 70):
with batching disabled, askLLM receives the output schema in the schema slot;
with batching enabled but a non-batchable prompt, the source instead passes
the output-options object in the schema slot; otherwise the request is queued
for batching. -/
def processRequest {S I O : Type} (enableBatching : Bool) (promptText : String)
    (outputSchema : S) (inputOptions : I) (outputOptions : O) : ProcessOutcome S I O :=
  if enableBatching = false then
    ProcessOutcome.immediate
      ⟨promptText, SchemaSlot.schema outputSchema, inputOptions, outputOptions⟩
  else if isBatchable promptText = false then
    ProcessOutcome.immediate
      ⟨promptText, SchemaSlot.options outputOptions, inputOptions, outputOptions⟩
  else ProcessOutcome.queued

/-- Sequential fallback `processSequentially`: every request runs its own
individual askLLM call and settles with its own outcome (the 50 ms pacing
delay between calls is timing-only and not modelled). -/
def processSequentially {Req E R : Type} (run : Req → Except E R) (requests : List Req) :
    List (Except E R) :=
  requests.map run

/-- Embeds `processBatchedItemParsing` at the level of promise settlements:
`combined` is the outcome of the combined completion call (a thrown error, a
non-array value, or an array of results); request i settles with array entry
i when the returned array has exactly one entry per request, and the whole
batch falls back to per-request sequential execution otherwise. -/
def processBatchedItemParsing {Req E R : Type} (run : Req → Except E R)
    (combined : Except E (Option (List R))) (requests : List Req) : List (Except E R) :=
  match combined with
  | Except.ok (some results) =>
    if results.length = requests.length then results.map Except.ok
    else processSequentially run requests
  | Except.ok none => processSequentially run requests
  | Except.error _ => processSequentially run requests

end BatchProcessor

/-- Claim C7 fails on the code: at the failing input (batching enabled and a
prompt matching no batchable prefix) processRequest issues the immediate
askLLM call with the output-options object in the schema argument slot
instead of the supplied output schema, unlike the batching-disabled path,
which passes the schema through correctly. -/
theorem c7_nonbatchable_passes_options_as_schema :
    BatchProcessor.isBatchable "Summarize this item" = false ∧
    BatchProcessor.processRequest true "Summarize this item" (7 : Nat) "inputs" "opts"
      = BatchProcessor.ProcessOutcome.immediate
          ⟨"Summarize this item", BatchProcessor.SchemaSlot.options "opts", "inputs", "opts"⟩ ∧
    BatchProcessor.processRequest false "Summarize this item" (7 : Nat) "inputs" "opts"
      = BatchProcessor.ProcessOutcome.immediate
          ⟨"Summarize this item", BatchProcessor.SchemaSlot.schema 7, "inputs", "opts"⟩ ∧
    (BatchProcessor.SchemaSlot.options "opts" : BatchProcessor.SchemaSlot Nat String)
      ≠ BatchProcessor.SchemaSlot.schema 7 := by
  refine ⟨by decide, ?_, rfl, by decide⟩
  have hb : BatchProcessor.isBatchable "Summarize this item" = false := by decide
  simp [BatchProcessor.processRequest, hb]

/-- Claim C8: a flushed multi-member item-parsing batch distributes an array
of exactly N results positionally, request i settling with entry i; on a
length mismatch, a non-array result, or a thrown combined call, every member
runs sequentially and settles with its own individual outcome; in all cases
every member settles (the batch is never rejected as a whole). -/
theorem c8_batch_distribution {Req E R : Type} (run : Req → Except E R)
    (combined : Except E (Option (List R))) (requests : List Req) :
    ((BatchProcessor.processBatchedItemParsing run combined requests).length
        = requests.length) ∧
    (∀ results, combined = Except.ok (some results) → results.length = requests.length →
      ∀ i : Nat, (BatchProcessor.processBatchedItemParsing run combined requests)[i]?
          = (results[i]?).map Except.ok) ∧
    (∀ results, combined = Except.ok (some results) → results.length ≠ requests.length →
      BatchProcessor.processBatchedItemParsing run combined requests = requests.map run) ∧
    (combined = Except.ok none →
      BatchProcessor.processBatchedItemParsing run combined requests = requests.map run) ∧
    (∀ err, combined = Except.error err →
      BatchProcessor.processBatchedItemParsing run combined requests = requests.map run) := by
  refine ⟨?_, ?_, ?_, ?_, ?_⟩
  · cases combined with
    | error err => simp [BatchProcessor.processBatchedItemParsing,
        BatchProcessor.processSequentially]
    | ok v =>
      cases v with
      | none => simp [BatchProcessor.processBatchedItemParsing,
          BatchProcessor.processSequentially]
      | some results =>
        by_cases h : results.length = requests.length
        · simp [BatchProcessor.processBatchedItemParsing, h]
        · simp [BatchProcessor.processBatchedItemParsing, h,
            BatchProcessor.processSequentially]
  · intro results hc hlen i
    subst hc
    simp [BatchProcessor.processBatchedItemParsing, hlen]
  · intro results hc hlen
    subst hc
    simp [BatchProcessor.processBatchedItemParsing, hlen,
      BatchProcessor.processSequentially]
  · intro hc
    subst hc
    rfl
  · intro err hc
    subst hc
    rfl

/-- Witness for claim C8: a two-request batch distributing a well-sized array
positionally, and falling back to sequential execution on a one-element
array. -/
theorem c8_batch_distribution_witness :
    (BatchProcessor.processBatchedItemParsing (fun r : Nat => Except.ok (r * 2))
        (Except.ok (some [10, 20]) : Except String (Option (List Nat))) [5, 6])[0]?
      = some (Except.ok 10) ∧
    BatchProcessor.processBatchedItemParsing (fun r : Nat => Except.ok (r * 2))
        (Except.ok (some [10]) : Except String (Option (List Nat))) [5, 6]
      = [Except.ok 10, Except.ok 12] := by
  refine ⟨?_, ?_⟩
  · exact (c8_batch_distribution (fun r : Nat => Except.ok (r * 2))
      (Except.ok (some [10, 20])) [5, 6]).2.1 [10, 20] rfl (by decide) 0
  · have h := (c8_batch_distribution (fun r : Nat => Except.ok (r * 2))
      (Except.ok (some [10]) : Except String (Option (List Nat))) [5, 6]).2.2.1
      [10] rfl (by decide)
    rw [h]
    rfl

namespace RateLimiter

/-- The rate-limit thresholds read from configuration. -/
structure RLConfig where
  requestsPerMinute : Nat
  requestsPerSecond : Nat
  maxConcurrent : Nat
deriving DecidableEq

/-- The mutable limiter state: the in-flight counter, the recorded dispatch
timestamps, and the current clock (milliseconds). -/
structure RLState where
  activeRequests : Nat
  requestTimestamps : List Int
  now : Int
deriving DecidableEq

/-- The timestamp pruning performed by `canMakeRequest`: entries older than
60 seconds are dropped and the pruned list is written back. -/
def pruneTimestamps (now : Int) (ts : List Int) : List Int :=
  ts.filter (fun t => decide (t > now - 60000))

/-- Number of recorded timestamps within the trailing one-second window. -/
def countLastSecond (now : Int) (ts : List Int) : Nat :=
  (ts.filter (fun t => decide (t > now - 1000))).length

/-- Embeds `canMakeRequest`: both window counts, taken on the pruned list,
must be strictly below their thresholds. -/
def canMakeRequest (cfg : RLConfig) (now : Int) (ts : List Int) : Bool :=
  let pruned := pruneTimestamps now ts
  decide (pruned.length < cfg.requestsPerMinute)
    && decide (countLastSecond now pruned < cfg.requestsPerSecond)

/-- The atomic transitions of the limiter event loop under cooperative
single-threaded scheduling: time passes; a failed admission check still
prunes the timestamp list; `processQueue` dispatches a queued request
(guarded by the concurrency ceiling and the window check, synchronously
incrementing the in-flight counter and recording the dispatch timestamp);
and a dispatched request settles, decrementing the counter.  Queue contents
never affect the counters and are not modelled. -/
inductive RLStep (cfg : RLConfig) : RLState → RLState → Prop
  | tick (s : RLState) (d : Int) (hd : 0 ≤ d) :
      RLStep cfg s { s with now := s.now + d }
  | prune (s : RLState) :
      RLStep cfg s { s with requestTimestamps := pruneTimestamps s.now s.requestTimestamps }
  | dispatch (s : RLState)
      (hc : s.activeRequests < cfg.maxConcurrent)
      (hw : canMakeRequest cfg s.now s.requestTimestamps = true) :
      RLStep cfg s
        { activeRequests := s.activeRequests + 1
          requestTimestamps := pruneTimestamps s.now s.requestTimestamps ++ [s.now]
          now := s.now }
  | settle (s : RLState) (h : 0 < s.activeRequests) :
      RLStep cfg s { s with activeRequests := s.activeRequests - 1 }

/-- States reachable from an idle start (no in-flight requests, no recorded
timestamps) under any interleaving of limiter events. -/
inductive RLReachable (cfg : RLConfig) : RLState → Prop
  | init (now : Int) : RLReachable cfg ⟨0, [], now⟩
  | step {s s2 : RLState} : RLReachable cfg s → RLStep cfg s s2 → RLReachable cfg s2

lemma filter_length_mono {α : Type} (p q : α → Bool) (l : List α)
    (h : ∀ a, p a = true → q a = true) :
    (l.filter p).length ≤ (l.filter q).length := by
  induction l with
  | nil => simp
  | cons a as ih =>
    simp only [List.filter_cons]
    by_cases hp : p a = true
    · rw [if_pos hp, if_pos (h a hp)]
      simpa using ih
    · rw [if_neg hp]
      by_cases hq : q a = true
      · rw [if_pos hq]
        simp only [List.length_cons]
        omega
      · rw [if_neg hq]
        exact ih

lemma countLastSecond_mono_time (ts : List Int) (now d : Int) (hd : 0 ≤ d) :
    countLastSecond (now + d) ts ≤ countLastSecond now ts := by
  unfold countLastSecond
  refine filter_length_mono _ _ ts ?_
  intro a ha
  simp only [decide_eq_true_eq] at *
  omega

lemma countLastSecond_prune_le (ts : List Int) (now : Int) :
    countLastSecond now (pruneTimestamps now ts) ≤ countLastSecond now ts := by
  unfold countLastSecond pruneTimestamps
  exact List.Sublist.length_le (List.Sublist.filter _ (List.filter_sublist ts))

end RateLimiter

lemma rl_step_preserves (cfg : RateLimiter.RLConfig) {s s2 : RateLimiter.RLState}
    (hstep : RateLimiter.RLStep cfg s s2)
    (h1 : s.activeRequests ≤ cfg.maxConcurrent)
    (h2 : RateLimiter.countLastSecond s.now s.requestTimestamps ≤ cfg.requestsPerSecond) :
    s2.activeRequests ≤ cfg.maxConcurrent ∧
    RateLimiter.countLastSecond s2.now s2.requestTimestamps ≤ cfg.requestsPerSecond := by
  cases hstep with
  | tick d hd =>
    refine ⟨h1, ?_⟩
    exact le_trans (RateLimiter.countLastSecond_mono_time s.requestTimestamps s.now d hd) h2
  | prune =>
    refine ⟨h1, ?_⟩
    exact le_trans (RateLimiter.countLastSecond_prune_le s.requestTimestamps s.now) h2
  | dispatch hc hw =>
    refine ⟨hc, ?_⟩
    simp only [RateLimiter.canMakeRequest, Bool.and_eq_true, decide_eq_true_eq] at hw
    have hw2 := hw.2
    show RateLimiter.countLastSecond s.now
        (RateLimiter.pruneTimestamps s.now s.requestTimestamps ++ [s.now])
      ≤ cfg.requestsPerSecond
    unfold RateLimiter.countLastSecond at hw2 ⊢
    rw [List.filter_append]
    simp only [List.length_append]
    have hone : (List.filter (fun t => decide (t > s.now - 1000)) [s.now]).length ≤ 1 := by
      simp only [List.filter]
      split <;> simp
    omega
  | settle h =>
    exact ⟨le_trans (Nat.sub_le _ _) h1, h2⟩

/-- Claim C9: in every reachable state of the rate limiter, under any
interleaving of dispatches, settlements, pruning and passage of time, the
in-flight counter never exceeds maxConcurrent and the number of recorded
timestamps within the trailing 1000 ms window never exceeds
requestsPerSecond. -/
theorem c9_rate_limiter_invariant (cfg : RateLimiter.RLConfig) (s : RateLimiter.RLState)
    (h : RateLimiter.RLReachable cfg s) :
    s.activeRequests ≤ cfg.maxConcurrent ∧
    RateLimiter.countLastSecond s.now s.requestTimestamps ≤ cfg.requestsPerSecond := by
  induction h with
  | init now => simp [RateLimiter.countLastSecond]
  | step hreach hstep ih => exact rl_step_preserves cfg hstep ih.1 ih.2

/-- Witness for claim C9 at a state reached by one dispatch from the idle
start under thresholds 60 per minute, 3 per second, 2 concurrent. -/
theorem c9_rate_limiter_invariant_witness :
    (1 : Nat) ≤ 2 ∧ RateLimiter.countLastSecond 0 [0] ≤ 3 := by
  have hreach : RateLimiter.RLReachable ⟨60, 3, 2⟩ ⟨1, [0], 0⟩ := by
    refine RateLimiter.RLReachable.step (RateLimiter.RLReachable.init 0) ?_
    exact RateLimiter.RLStep.dispatch ⟨0, [], 0⟩ (by decide) (by decide)
  exact c9_rate_limiter_invariant ⟨60, 3, 2⟩ ⟨1, [0], 0⟩ hreach
